import Mathlib

/-!
Shallow embedding of the translation-resolution engine of the
juit-vue-i18n repository (src translator module): template parsing
(pipe-splitting with escape handling), language-fallback resolution,
the parsed-template cache, plural-variant selection and parameter
interpolation, together with proofs of the specification claims.
-/

namespace JuitI18n

/-! ### Basic JavaScript-value model -/

/-- A JavaScript number as far as the translator observes it: `NaN`, the two
infinities, or a finite value (modelled as a rational; the engine only ever
compares numbers with `===` against the literals `0` and `1`, which are exact
in IEEE doubles, so the rational model is faithful for those comparisons). -/
inductive JSNumber where
  | nan : JSNumber
  | posInf : JSNumber
  | negInf : JSNumber
  | num : ℚ → JSNumber
deriving DecidableEq

/-- JavaScript strict equality on numbers: `NaN === x` is false for every `x`
(including `NaN` itself); finite values compare by value. -/
def jsEq : JSNumber → JSNumber → Bool
  | .num a, .num b => a == b
  | .posInf, .posInf => true
  | .negInf, .negInf => true
  | _, _ => false

/-- A translation-parameter value (`TranslationParams` values in the source
are `string | number`). -/
inductive JSValue where
  | str : String → JSValue
  | num : JSNumber → JSValue
deriving DecidableEq

/-- The value of `params.n` as seen by the selector: either a number or
JavaScript `undefined` (when no `n` key is present). -/
inductive NVal where
  | undefinedVal : NVal
  | num : JSNumber → NVal
deriving DecidableEq

/-- `===` between the (possibly `undefined`) `n` and another such value;
`undefined === number` is false. -/
def nvEq : NVal → NVal → Bool
  | .num a, .num b => jsEq a b
  | .undefinedVal, .undefinedVal => true
  | _, _ => false

/-- JavaScript whitespace (the set trimmed by `String.prototype.trim` and
matched by the regex class backslash-s). -/
def jsWS (c : Char) : Bool :=
  c = ' ' || c = '\t' || c = '\n' || c = '\r' || c = '\x0b' || c = '\x0c' ||
  c = '\u00A0' || c = '\u1680' || ('\u2000' ≤ c && c ≤ '\u200A') ||
  c = '\u2028' || c = '\u2029' || c = '\u202F' || c = '\u205F' ||
  c = '\u3000' || c = '\uFEFF'

/-- `String.prototype.trim`: drop leading and trailing whitespace. -/
def jsTrim (s : String) : String :=
  String.mk (((s.data.dropWhile jsWS).reverse.dropWhile jsWS).reverse)

/-! ### Template parser (extractTemplate, string-splitting part)

The source splits the raw message with the regular expression
(?<!bs)(?:bs bs)* pipe  (bs = backslash): a pipe is a split point exactly
when the maximal run of backslashes immediately before it has even length
(the lookbehind forbids starting inside a run, the starred group consumes
the run pairwise), and the matched text - the even run plus the pipe - is
removed by the split.  `splitAux` is that automaton: `acc` is the current
segment (reversed), `run` the pending backslash run not yet flushed. -/
def splitAux : List Char → List Char → Nat → List (List Char)
  | [], acc, run => [acc.reverse ++ List.replicate run '\\']
  | c :: cs, acc, run =>
    if c = '\\' then splitAux cs acc (run + 1)
    else if c = '|' then
      if run % 2 = 0 then acc.reverse :: splitAux cs [] 0
      else splitAux cs ('|' :: (List.replicate run '\\' ++ acc)) 0
    else splitAux cs (c :: (List.replicate run '\\' ++ acc)) 0

/-- The result of the source split
`string.split(regex)` on the raw message. -/
def splitSegments (s : String) : List String :=
  (splitAux s.data [] 0).map String.mk

/-- The three-variant template produced by the parser. -/
structure TranslationTemplate where
  zero : String
  singular : String
  plural : String
deriving DecidableEq

/-- The segment-count policy of `extractTemplate` (source lines 303-318):
1 segment feeds all three fields, 2 segments give singular then zero=plural,
3 or more give zero, singular, plural (extras dropped); each selected field
is trimmed.  The empty-list case is unreachable (`splitAux` always returns
at least one segment, see `splitSegments_ne_nil`). -/
def parseTemplateString (s : String) : TranslationTemplate :=
  match splitSegments s with
  | [sing] => ⟨jsTrim sing, jsTrim sing, jsTrim sing⟩
  | [sing, plur] => ⟨jsTrim plur, jsTrim sing, jsTrim plur⟩
  | z :: sing :: plur :: _ => ⟨jsTrim z, jsTrim sing, jsTrim plur⟩
  | [] => ⟨"", "", ""⟩

/-! ### Translations, fallback resolution and diagnostics -/

/-- An `InternalTranslation`: language identifier to raw message string
(an association list standing for the source record; lookup takes the
first binding of a key). -/
abbrev InternalTranslation := List (String × String)

/-- The `InternalTranslations` table: message key to translation entry. -/
abbrev InternalTranslations := List (String × InternalTranslation)

/-- First-binding association-list lookup (JavaScript property access on the
modelled records). -/
def alGet {α : Type} : List (String × α) → String → Option α
  | [], _ => none
  | (k, v) :: rest, key => if k = key then some v else alGet rest key

/-- Insert-or-update on an association list (JavaScript property write). -/
def alSet {α : Type} : List (String × α) → String → α → List (String × α)
  | [], key, v => [(key, v)]
  | (k, w) :: rest, key, v =>
    if k = key then (key, v) :: rest else (k, w) :: alSet rest key v

/-- The soft diagnostics the engine can emit through the warning sink. -/
inductive Diagnostic where
  | missingKey : String → Diagnostic
  | missingDefaultLanguage : String → Diagnostic
deriving DecidableEq

/-- The language-scanning loop of `extractTemplate` (source lines 292-295):
take the first fallback language whose entry is a truthy (non-empty) string;
an entry that is absent or maps to the empty string is skipped. -/
def findRaw (translation : InternalTranslation) : List String → Option String
  | [] => none
  | lang :: rest =>
    match alGet translation lang with
    | some s => if s = "" then findRaw translation rest else some s
    | none => findRaw translation rest

/-- `extractTemplate` (source lines 286-319): resolve the raw message along
the fallback order; when no truthy entry exists, emit the
missing-default-language diagnostic (named after the last fallback language)
and return the all-empty template; otherwise parse the raw message.
The fallback order is the source type LanguageKeys, a non-empty tuple, so
the defaulted last element is never used on the empty list. -/
def extractTemplate (translation : InternalTranslation) (languages : List String) :
    TranslationTemplate × List Diagnostic :=
  match findRaw translation languages with
  | none =>
    (⟨"", "", ""⟩, [Diagnostic.missingDefaultLanguage (languages.getLastD "")])
  | some s => (parseTemplateString s, [])

/-! ### Template lookup with cache (getTemplate) -/

/-- The per-table cache: primary language to (message key to parsed
template), the two inner levels of the source WeakMap cache (the outer
level, table identity, is implicit because the model handles one table). -/
structure TemplateCache where
  entries : List (String × List (String × TranslationTemplate))
deriving DecidableEq

/-- The empty cache (state before any lookup). -/
def TemplateCache.empty : TemplateCache := ⟨[]⟩

/-- Cache read at (primary language, key). -/
def cacheGet (c : TemplateCache) (lang key : String) : Option TranslationTemplate :=
  match alGet c.entries lang with
  | none => none
  | some inner => alGet inner key

/-- Cache write at (primary language, key). -/
def cacheSet (c : TemplateCache) (lang key : String) (t : TranslationTemplate) :
    TemplateCache :=
  match alGet c.entries lang with
  | none => ⟨alSet c.entries lang [(key, t)]⟩
  | some inner => ⟨alSet c.entries lang (alSet inner key t)⟩

/-- The argument of `getTemplate`: a string message key, or an inline
translation entry. -/
inductive TranslationArg where
  | key : String → TranslationArg
  | inline : InternalTranslation → TranslationArg
deriving DecidableEq

/-- `getTemplate` (source lines 248-280), with the cache passed as explicit
state.  An empty (falsy) key throws; an inline entry is parsed uncached; a
string key is served from the cache keyed by (primary language, key), and on
a miss the table is consulted - an absent key emits the missing-key
diagnostic and synthesizes an entry mapping the last fallback language to
the key itself - then the parsed template is stored in the cache.
On a cache hit no diagnostics are emitted. -/
def getTemplate (cache : TemplateCache) (translations : InternalTranslations)
    (arg : TranslationArg) (languages : List String) :
    Except String (TranslationTemplate × TemplateCache × List Diagnostic) :=
  match arg with
  | .key k =>
    if k = "" then .error "No translation key specified"
    else
      match cacheGet cache (languages.headD "") k with
      | some t => .ok (t, cache, [])
      | none =>
        match alGet translations k with
        | some translation =>
          let (t, ds) := extractTemplate translation languages
          .ok (t, cacheSet cache (languages.headD "") k t, ds)
        | none =>
          let (t, ds) := extractTemplate [(languages.getLastD "", k)] languages
          .ok (t, cacheSet cache (languages.headD "") k t,
               Diagnostic.missingKey k :: ds)
  | .inline translation =>
    let (t, ds) := extractTemplate translation languages
    .ok (t, cache, ds)

/-- The template an uncached parse produces for a string key: resolve the
entry (synthesizing the last-language entry when the key is absent) and
parse the resolved raw message.  Used to state that the cache is not
observable in the result. -/
def uncachedTemplate (translations : InternalTranslations) (k : String)
    (languages : List String) : TranslationTemplate :=
  match alGet translations k with
  | some translation => (extractTemplate translation languages).1
  | none => (extractTemplate [(languages.getLastD "", k)] languages).1

/-! ### Language resolver (the computed languages order) -/

/-- The `languages` computed value (source lines 147-153): start from the
bare language, prepend language-region when a region is present (truthy),
and append the normalized default language when it differs from the BARE
language (the source compares `language !== defaultLanguage` only). -/
def languagesOrder (language : String) (region : Option String)
    (defaultLanguage : String) : List String :=
  let base : List String :=
    match region with
    | some r => if r = "" then [language] else [language ++ "-" ++ r, language]
    | none => [language]
  if language ≠ defaultLanguage then base ++ [defaultLanguage] else base

/-- Modelled from the spec words of claim C2, for comparison with
`languagesOrder`: the default language is appended only if it differs from
BOTH the language-region entry and the bare language entry. -/
def languagesOrderSpec (language : String) (region : Option String)
    (defaultLanguage : String) : List String :=
  let base : List String :=
    match region with
    | some r => if r = "" then [language] else [language ++ "-" ++ r, language]
    | none => [language]
  if defaultLanguage ∈ base then base else base ++ [defaultLanguage]

/-! ### Parameter interpolation (replaceParams)

The source replaces, for each parameter, the global case-insensitive regex
(. or start)(openbrace ws* name ws* closebrace) with a callback that keeps
the matched token when the preceding character is a backslash (dropping the
backslash) and otherwise substitutes the value.  The scanner below mirrors
the regex engine: at each input position it first tries to use the current
character as the one-character group (any character except a line
terminator), and only at the very start of the string the empty start-anchor
alternative; a successful match consumes the group character and the token,
and scanning resumes after the token.  Parameter names are modelled as
literal text without surrounding whitespace or regex metacharacters (the
shape of every name the engine is called with). -/

/-- JavaScript line terminators (not matched by the dot). -/
def lineTerm (c : Char) : Bool :=
  c = '\n' || c = '\r' || c = '\u2028' || c = '\u2029'

/-- Split off the maximal leading run of whitespace (the greedy ws*). -/
def takeWS : List Char → List Char × List Char
  | [] => ([], [])
  | c :: cs =>
    if jsWS c then
      let (w, r) := takeWS cs
      (c :: w, r)
    else ([], c :: cs)

/-- Case-insensitive literal match of the parameter name (the i flag);
returns the consumed original characters and the remainder. -/
def matchName : List Char → List Char → Option (List Char × List Char)
  | [], s => some ([], s)
  | _ :: _, [] => none
  | p :: ps, c :: cs =>
    if p.toLower = c.toLower then
      match matchName ps cs with
      | some (tok, r) => some (c :: tok, r)
      | none => none
    else none

/-- Try to match the placeholder
openbrace ws* name ws* closebrace at the head of `s`; on success return
the matched token text and the remainder. -/
def tryPlaceholder (name : List Char) (s : List Char) :
    Option (List Char × List Char) :=
  match s with
  | '{' :: t =>
    let (w1, t1) := takeWS t
    match matchName name t1 with
    | some (tok, t2) =>
      let (w2, t3) := takeWS t2
      match t3 with
      | '}' :: t4 => some ('{' :: (w1 ++ tok ++ w2 ++ ['}']), t4)
      | _ => none
    | none => none
  | _ => none

/-- One `replaceAll` pass for a single parameter, as a left-to-right scan.
`fuel` only bounds the recursion (every step consumes at least one input
character, so any fuel at least the input length is exact); `atStart` is
true only at position zero, where the start-anchor alternative of the group
can match. -/
def interpGo (name repl : List Char) : Nat → Bool → List Char → List Char
  | 0, _, s => s
  | _ + 1, _, [] => []
  | fuel + 1, atStart, c :: rest =>
    match (if lineTerm c then none else tryPlaceholder name rest) with
    | some (tok, after) =>
      (if c = '\\' then tok else c :: repl) ++ interpGo name repl fuel false after
    | none =>
      if atStart then
        match tryPlaceholder name (c :: rest) with
        | some (_tok, after) => repl ++ interpGo name repl fuel false after
        | none => c :: interpGo name repl fuel false rest
      else c :: interpGo name repl fuel false rest

/-- `formatted.replaceAll(expr, callback)` for one parameter. -/
def interpolateParam (name repl s : String) : String :=
  String.mk (interpGo name.data repl.data (s.data.length + 1) true s.data)

/-- The string-to-number coercion and selection input of `replaceParams`
(source line 328): a string-valued `n` is coerced through the external
Number() builtin (passed as `toNum`), a number is used as is, an absent `n`
is `undefined`. -/
def coerceN (toNum : String → JSNumber) : Option JSValue → NVal
  | some (.str s) => .num (toNum s)
  | some (.num x) => .num x
  | none => .undefinedVal

/-- Variant selection (source lines 329-331): `n === 0` picks zero,
otherwise `n === 1` picks singular, otherwise plural. -/
def selectVariant (t : TranslationTemplate) (n : NVal) : String :=
  if nvEq n (.num (.num 0)) then t.zero
  else if nvEq n (.num (.num 1)) then t.singular
  else t.plural

/-- The string a parameter value substitutes as: numbers go through the
external locale number formatter, strings are verbatim (source lines
335-338). -/
def valueString (format : JSNumber → String) : JSValue → String
  | .num x => format x
  | .str s => s

/-- `replaceParams` (source lines 322-349): select the variant from the
(coerced) `n` parameter, substitute every parameter in entry order, then
trim the result. -/
def replaceParams (t : TranslationTemplate) (params : List (String × JSValue))
    (toNum : String → JSNumber) (format : JSNumber → String) : String :=
  let n := coerceN toNum (alGet params "n")
  let formatted := selectVariant t n
  let formatted := params.foldl
    (fun acc p => interpolateParam p.1 (valueString format p.2) acc) formatted
  jsTrim formatted

/-! ### The translator pipeline (tc and t) -/

/-- `Object.assign({ n }, params)`: the merged parameter list has `n` first
(overridden by a caller-supplied `n` value), then the remaining parameters
in order. -/
def mergeParams (n : JSNumber) (params : List (String × JSValue)) :
    List (String × JSValue) :=
  let nVal := match alGet params "n" with
    | some v => v
    | none => JSValue.num n
  ("n", nVal) :: params.filter (fun p => p.1 ≠ "n")

/-- `tc` (source lines 217-221): look the template up (cache state passed
explicitly), then interpolate with the merged parameters; the empty-key
error of `getTemplate` propagates to the caller. -/
def tc (cache : TemplateCache) (translations : InternalTranslations)
    (languages : List String) (toNum : String → JSNumber)
    (format : JSNumber → String) (arg : TranslationArg) (n : JSNumber)
    (params : List (String × JSValue)) :
    Except String (String × TemplateCache × List Diagnostic) :=
  match getTemplate cache translations arg languages with
  | .error e => .error e
  | .ok (t, cache1, ds) =>
    .ok (replaceParams t (mergeParams n params) toNum format, cache1, ds)

/-- `t` (source lines 213-215): `tc` with `n = 1`. -/
def tFun (cache : TemplateCache) (translations : InternalTranslations)
    (languages : List String) (toNum : String → JSNumber)
    (format : JSNumber → String) (arg : TranslationArg)
    (params : List (String × JSValue)) :
    Except String (String × TemplateCache × List Diagnostic) :=
  tc cache translations languages toNum format arg (.num 1) params

/-! ### The active locale and its setters -/

/-- The observable state of an Intl.Locale: language and optional region
(the only fields the translator reads). -/
structure ActiveLocale where
  language : String
  region : Option String
deriving DecidableEq

/-- The `language` setter (source lines 190-192):
new Intl.Locale(value, { ...locale.value }).  Spreading an Intl.Locale
instance copies no own properties (language and region are accessor
properties of the prototype), so the options bag is empty and the new
locale is just the parsed bare-language tag: the region is dropped. -/
def setLanguage (_st : ActiveLocale) (value : String) : ActiveLocale :=
  { language := value, region := none }

/-- The `region` setter (source lines 198-200):
new Intl.Locale(language, { ...locale, region: value or undefined }).  The
spread again contributes nothing; the explicit region option is honoured
(a falsy value clears it), and the language tag is the current language. -/
def setRegion (st : ActiveLocale) (value : Option String) : ActiveLocale :=
  { language := st.language,
    region := match value with
      | some r => if r = "" then none else some r
      | none => none }

/-! ### Auxiliary predicates and spec-side definitions -/

/-- Modelled from the amended words of claim C2: the default language is
appended only when it differs from the bare language entry (the
language-region entry is not consulted). -/
def languagesOrderAmendedSpec (language : String) (region : Option String)
    (defaultLanguage : String) : List String :=
  let base : List String :=
    match region with
    | some r => if r = "" then [language] else [language ++ "-" ++ r, language]
    | none => [language]
  if defaultLanguage = language then base else base ++ [defaultLanguage]

/-- A segment free of backslashes and pipes (no escape interaction). -/
def plainSegment (s : String) : Prop := '\\' ∉ s.data ∧ '|' ∉ s.data

/-- A cache state is valid for a table and fallback order when every entry
stored under the primary language equals the template an uncached parse
would produce; the empty cache is trivially valid and `getTemplate`
preserves validity. -/
def ValidCache (translations : InternalTranslations) (languages : List String)
    (c : TemplateCache) : Prop :=
  ∀ k t, cacheGet c (languages.headD "") k = some t →
    t = uncachedTemplate translations k languages

/-! ## Theorems -/

/-! ### Sanity checks of the embedding against the repository test suite -/

example : splitSegments "a|b" = ["a", "b"] := by decide
example : splitSegments "a\\|b" = ["a\\|b"] := by decide
example : splitSegments "a\\\\|b" = ["a", "b"] := by decide
example : splitSegments "a\\\\\\|b" = ["a\\\\\\|b"] := by decide
example : splitSegments "" = [""] := by decide
example : splitSegments "|" = ["", ""] := by decide
example : parseTemplateString " one | two | three | four " =
    ⟨"one", "two", "three"⟩ := by decide
example : parseTemplateString " a " = ⟨"a", "a", "a"⟩ := by decide
example : parseTemplateString "s|p" = ⟨"p", "s", "p"⟩ := by decide

/-! ### Helper lemmas -/

theorem string_mk_data (s : String) : String.mk s.data = s := by
  cases s
  rfl

theorem splitAux_ne_nil (cs : List Char) : ∀ acc run, splitAux cs acc run ≠ [] := by
  induction cs with
  | nil => intro acc run; simp [splitAux]
  | cons c cs ih =>
    intro acc run
    simp only [splitAux]
    split_ifs <;> first | exact ih _ _ | simp

theorem splitSegments_ne_nil (s : String) : splitSegments s ≠ [] := by
  unfold splitSegments
  intro h
  exact splitAux_ne_nil _ _ _ (List.map_eq_nil_iff.mp h)

theorem splitAux_plain_prefix (cs : List Char) (h1 : '\\' ∉ cs) (h2 : '|' ∉ cs) :
    ∀ acc rest, splitAux (cs ++ rest) acc 0 = splitAux rest (cs.reverse ++ acc) 0 := by
  induction cs with
  | nil => intro acc rest; simp
  | cons c cs ih =>
    intro acc rest
    have hc1 : c ≠ '\\' := fun h => h1 (by simp [h])
    have hc2 : c ≠ '|' := fun h => h2 (by simp [h])
    have h1c : '\\' ∉ cs := fun h => h1 (List.mem_cons_of_mem _ h)
    have h2c : '|' ∉ cs := fun h => h2 (List.mem_cons_of_mem _ h)
    simp only [List.cons_append, splitAux, if_neg hc1, if_neg hc2,
      List.replicate, List.nil_append, List.append_eq]
    rw [ih h1c h2c]
    simp

/-! ### Claim C1: variant-count policy of the template parser -/

/-- C1: for every raw message string, the parser yields a template driven by
the segment count of the (escape-aware) split: with 1 segment all three
fields are that segment; with 2 segments singular is the first and both zero
and plural the second; with 3 or more segments the first three segments are
zero, singular, plural and the rest are dropped; every selected field is
trimmed of leading and trailing whitespace. -/
theorem claim_C1_variant_count_policy (s : String) :
    ((splitSegments s).length = 1 →
      parseTemplateString s =
        ⟨jsTrim ((splitSegments s).getD 0 ""), jsTrim ((splitSegments s).getD 0 ""),
         jsTrim ((splitSegments s).getD 0 "")⟩) ∧
    ((splitSegments s).length = 2 →
      parseTemplateString s =
        ⟨jsTrim ((splitSegments s).getD 1 ""), jsTrim ((splitSegments s).getD 0 ""),
         jsTrim ((splitSegments s).getD 1 "")⟩) ∧
    (3 ≤ (splitSegments s).length →
      parseTemplateString s =
        ⟨jsTrim ((splitSegments s).getD 0 ""), jsTrim ((splitSegments s).getD 1 ""),
         jsTrim ((splitSegments s).getD 2 "")⟩) := by
  rcases hseg : splitSegments s with _ | ⟨a, _ | ⟨b, _ | ⟨c, rest⟩⟩⟩ <;>
    simp [parseTemplateString, hseg]

/-- Witness for C1 at a concrete four-segment message: the fourth segment is
dropped and the first three are trimmed. -/
theorem claim_C1_variant_count_policy_witness :
    parseTemplateString "z| s |p|x" = ⟨"z", "s", "p"⟩ :=
  ((claim_C1_variant_count_policy "z| s |p|x").2.2 (by decide)).trans (by decide)

/-! ### Claim C2: language fallback order -/

/-- C2 counterexample: with language de, region DE and default language
de-DE, the resolver appends the default language even though it equals the
language-region entry (the source only compares it with the bare language),
so the claimed fallback order (no duplicate) differs from the computed
one. -/
theorem claim_C2_counterexample :
    languagesOrder "de" (some "DE") "de-DE" = ["de-DE", "de", "de-DE"] ∧
    languagesOrderSpec "de" (some "DE") "de-DE" = ["de-DE", "de"] ∧
    languagesOrder "de" (some "DE") "de-DE" ≠
      languagesOrderSpec "de" (some "DE") "de-DE" := by
  decide

/-- C2 amended: the resolver returns [language-region (only if a region is
set), language, defaultLanguage], where the default is appended only if it
differs by exact string comparison from the BARE language entry (it is not
compared with the language-region entry); the result is never empty. -/
theorem claim_C2_amended (language : String) (region : Option String)
    (defaultLanguage : String) :
    languagesOrder language region defaultLanguage =
      languagesOrderAmendedSpec language region defaultLanguage ∧
    languagesOrder language region defaultLanguage ≠ [] := by
  constructor
  · unfold languagesOrder languagesOrderAmendedSpec
    by_cases h : language = defaultLanguage <;> simp [h, eq_comm]
  · rcases region with _ | r
    · by_cases h : language = defaultLanguage <;> simp [languagesOrder, h]
    · by_cases h : language = defaultLanguage <;> by_cases h2 : r = "" <;>
        simp [languagesOrder, h, h2]

/-! ### Claim C3: escape handling of the pipe delimiter -/

/-- C3 counterexample: parsing the four-character raw message a backslash
pipe b yields the single segment with the backslash STILL PRESENT - the
split removes only the even backslash runs it consumes, never the single
escaping backslash - so the claimed segment text (backslash removed) is not
what the parser produces. -/
theorem claim_C3_counterexample :
    splitSegments "a\\|b" = ["a\\|b"] ∧ ("a\\|b" : String) ≠ "a|b" := by
  decide

/-- C3 amended: a pipe immediately preceded by a single unescaped backslash
never splits and the escaping backslash is RETAINED in the segment (so
parsing the message a backslash pipe b yields the single segment a backslash
pipe b), while a pipe preceded by an escaped backslash (two backslashes)
does split (the source regex consumes the backslash pair together with the
delimiter). -/
theorem splitAux_single_escape (bd : List Char) (hb1 : '\\' ∉ bd)
    (hb2 : '|' ∉ bd) (acc : List Char) :
    splitAux ('\\' :: '|' :: bd) acc 0 = [acc.reverse ++ '\\' :: '|' :: bd] := by
  rw [show splitAux ('\\' :: '|' :: bd) acc 0 = splitAux ('|' :: bd) acc 1 from by
    simp [splitAux]]
  rw [show splitAux ('|' :: bd) acc 1 = splitAux bd ('|' :: '\\' :: acc) 0 from by
    simp [splitAux, List.replicate]]
  have h := splitAux_plain_prefix bd hb1 hb2 ('|' :: '\\' :: acc) []
  rw [List.append_nil] at h
  rw [h]
  simp [splitAux, List.reverse_append]

theorem splitAux_double_escape (bd : List Char) (hb1 : '\\' ∉ bd)
    (hb2 : '|' ∉ bd) (acc : List Char) :
    splitAux ('\\' :: '\\' :: '|' :: bd) acc 0 = [acc.reverse, bd] := by
  rw [show splitAux ('\\' :: '\\' :: '|' :: bd) acc 0 = splitAux ('|' :: bd) acc 2 from by
    simp [splitAux]]
  rw [show splitAux ('|' :: bd) acc 2 = acc.reverse :: splitAux bd [] 0 from by
    simp [splitAux]]
  have h := splitAux_plain_prefix bd hb1 hb2 [] []
  rw [List.append_nil] at h
  rw [h]
  simp [splitAux]

theorem claim_C3_amended (a b : String) (ha : plainSegment a)
    (hb : plainSegment b) :
    splitSegments (a ++ "\\|" ++ b) = [a ++ "\\|" ++ b] ∧
    splitSegments (a ++ "\\\\|" ++ b) = [a, b] ∧
    parseTemplateString "a\\|b" = ⟨"a\\|b", "a\\|b", "a\\|b"⟩ := by
  obtain ⟨ha1, ha2⟩ := ha
  obtain ⟨hb1, hb2⟩ := hb
  refine ⟨?_, ?_, by decide⟩
  · unfold splitSegments
    have hdata : (a ++ "\\|" ++ b).data = a.data ++ ('\\' :: '|' :: b.data) := by
      simp [String.data_append]
    rw [hdata, splitAux_plain_prefix a.data ha1 ha2,
      splitAux_single_escape b.data hb1 hb2]
    simp only [List.append_nil, List.reverse_reverse, List.map, ← hdata,
      string_mk_data]
  · unfold splitSegments
    have hdata : (a ++ "\\\\|" ++ b).data
        = a.data ++ ('\\' :: '\\' :: '|' :: b.data) := by
      simp [String.data_append]
    rw [hdata, splitAux_plain_prefix a.data ha1 ha2,
      splitAux_double_escape b.data hb1 hb2]
    simp [string_mk_data]

/-- Witness for C3 at concrete plain segments x and y. -/
theorem claim_C3_amended_witness :
    splitSegments ("x" ++ "\\|" ++ "y") = [("x" : String) ++ "\\|" ++ "y"] ∧
    splitSegments ("x" ++ "\\\\|" ++ "y") = ["x", "y"] ∧
    parseTemplateString "a\\|b" = ⟨"a\\|b", "a\\|b", "a\\|b"⟩ :=
  claim_C3_amended "x" "y" ⟨by decide, by decide⟩ ⟨by decide, by decide⟩

/-! ### Claim C7: plural-variant selection -/

/-- C7: a string-valued n parameter is first coerced through the external
Number() builtin, and the selector then returns template.zero exactly when
the (coerced) n === 0, template.singular exactly when n === 1 (checked after
the zero test), and template.plural for every other value - negative,
fractional, NaN and values greater than 1 all fail both strict
equalities. -/
theorem claim_C7_selector (t : TranslationTemplate) (toNum : String → JSNumber)
    (v : Option JSValue) :
    (∀ s, coerceN toNum (some (.str s)) = .num (toNum s)) ∧
    (nvEq (coerceN toNum v) (.num (.num 0)) = true →
      selectVariant t (coerceN toNum v) = t.zero) ∧
    (nvEq (coerceN toNum v) (.num (.num 0)) = false →
      nvEq (coerceN toNum v) (.num (.num 1)) = true →
      selectVariant t (coerceN toNum v) = t.singular) ∧
    (nvEq (coerceN toNum v) (.num (.num 0)) = false →
      nvEq (coerceN toNum v) (.num (.num 1)) = false →
      selectVariant t (coerceN toNum v) = t.plural) := by
  refine ⟨fun s => rfl, ?_, ?_, ?_⟩
  · intro h0
    simp [selectVariant, h0]
  · intro h0 h1
    simp [selectVariant, h0, h1]
  · intro h0 h1
    simp [selectVariant, h0, h1]

/-- Witness for C7: NaN is neither === 0 nor === 1, so it selects the plural
variant. -/
theorem claim_C7_selector_witness :
    selectVariant ⟨"z", "s", "p"⟩
      (coerceN (fun _ => JSNumber.nan) (some (.num .nan))) = "p" :=
  (claim_C7_selector ⟨"z", "s", "p"⟩ (fun _ => JSNumber.nan)
    (some (.num .nan))).2.2.2 (by decide) (by decide)

/-! ### Claim C9: locale setters (code bug in the language setter) -/

/-- C9, evaluated at the failing input: with the active locale de-AT,
setting the language to en DROPS the region (the source spreads the
Intl.Locale instance into the options bag, but an Intl.Locale has no own
enumerable properties, so nothing is preserved), contradicting the claimed
region preservation; setting the region does preserve the language as
claimed. -/
theorem claim_C9_language_setter_drops_region :
    setLanguage ⟨"de", some "AT"⟩ "en" = ⟨"en", none⟩ ∧
    (setLanguage ⟨"de", some "AT"⟩ "en").region ≠ some "AT" ∧
    setRegion ⟨"de", some "AT"⟩ (some "CH") = ⟨"de", some "CH"⟩ ∧
    setRegion ⟨"de", some "AT"⟩ none = ⟨"de", none⟩ := by
  decide

/-! ### Claim C10: empty-string entries during fallback resolution -/

theorem findRaw_none_of_all_empty (translation : InternalTranslation) :
    ∀ langs : List String,
      (∀ l ∈ langs, alGet translation l = none ∨ alGet translation l = some "") →
      findRaw translation langs = none := by
  intro langs h
  induction langs with
  | nil => rfl
  | cons l rest ih =>
    have hl := h l (by simp)
    have hrest := ih fun x hx => h x (by simp [hx])
    rcases hl with hl | hl <;> simp [findRaw, hl, hrest]

/-- C10: a fallback language whose entry is the empty string is skipped
exactly like an absent one, and when every fallback language is absent or
empty - even when the default language is literally present with value "" -
the missing-default-language diagnostic (named after the last fallback
language) is emitted and the all-empty template is returned. -/
theorem claim_C10_empty_entries (translation : InternalTranslation)
    (languages : List String) (lang : String) (rest : List String) :
    (alGet translation lang = some "" →
      findRaw translation (lang :: rest) = findRaw translation rest) ∧
    ((∀ l ∈ languages,
        alGet translation l = none ∨ alGet translation l = some "") →
      languages ≠ [] →
      extractTemplate translation languages =
        (⟨"", "", ""⟩,
         [Diagnostic.missingDefaultLanguage (languages.getLastD "")])) := by
  constructor
  · intro h
    simp [findRaw, h]
  · intro h _
    unfold extractTemplate
    rw [findRaw_none_of_all_empty translation languages h]

/-- Witness for C10: the entry maps en to "", so lookup skips it, and with
fallback order [de, en] the all-empty template plus the diagnostic for en is
produced although en is literally present. -/
theorem claim_C10_empty_entries_witness :
    findRaw [("en", "")] ["en"] = findRaw [("en", "")] [] ∧
    extractTemplate [("en", "")] ["de", "en"] =
      (⟨"", "", ""⟩, [Diagnostic.missingDefaultLanguage "en"]) :=
  ⟨(claim_C10_empty_entries [("en", "")] ["de", "en"] "en" []).1 (by decide),
   (claim_C10_empty_entries [("en", "")] ["de", "en"] "en" []).2
     (by decide) (by decide)⟩

/-! ### Claim C4: the template cache is transparent -/

theorem alGet_alSet {α : Type} (l : List (String × α)) (k : String) (v : α) :
    alGet (alSet l k v) k = some v := by
  induction l with
  | nil => simp [alGet, alSet]
  | cons p rest ih =>
    obtain ⟨kp, w⟩ := p
    by_cases h : kp = k <;> simp [alSet, alGet, h, ih]

theorem cacheGet_cacheSet (c : TemplateCache) (lang key : String)
    (t : TranslationTemplate) :
    cacheGet (cacheSet c lang key t) lang key = some t := by
  unfold cacheGet cacheSet
  rcases h : alGet c.entries lang with _ | inner <;>
    simp [alGet_alSet, h, alGet]

/-- C4: for every table, fallback order and non-empty key, starting from any
valid cache state (in particular the empty one), two successive lookups of
the same (table, primary language, key) triple return the SAME parsed
template, and that template equals what an uncached parse of the resolved
raw message produces - the cache is unobservable in the result. -/
theorem claim_C4_cache_transparent (translations : InternalTranslations)
    (languages : List String) (k : String) (c : TemplateCache)
    (hk : k ≠ "") (hc : ValidCache translations languages c) :
    ∃ t c1 ds1 c2 ds2,
      getTemplate c translations (.key k) languages = .ok (t, c1, ds1) ∧
      getTemplate c1 translations (.key k) languages = .ok (t, c2, ds2) ∧
      t = uncachedTemplate translations k languages := by
  rcases h1 : cacheGet c (languages.headD "") k with _ | t0
  · rcases h2 : alGet translations k with _ | translation
    · rcases h3 : extractTemplate [(languages.getLastD "", k)] languages with ⟨t, ds⟩
      refine ⟨t, cacheSet c (languages.headD "") k t, Diagnostic.missingKey k :: ds,
        cacheSet c (languages.headD "") k t, [], ?_, ?_, ?_⟩
      · simp only [getTemplate, if_neg hk, h1, h2, h3]
      · simp only [getTemplate, if_neg hk, cacheGet_cacheSet]
      · simp only [uncachedTemplate, h2, h3]
    · rcases h3 : extractTemplate translation languages with ⟨t, ds⟩
      refine ⟨t, cacheSet c (languages.headD "") k t, ds,
        cacheSet c (languages.headD "") k t, [], ?_, ?_, ?_⟩
      · simp only [getTemplate, if_neg hk, h1, h2, h3]
      · simp only [getTemplate, if_neg hk, cacheGet_cacheSet]
      · simp only [uncachedTemplate, h2, h3]
  · refine ⟨t0, c, [], c, [], ?_, ?_, hc k t0 h1⟩
    · simp only [getTemplate, if_neg hk, h1]
    · simp only [getTemplate, if_neg hk, h1]

/-- Witness for C4: first and second lookup of hello from the empty cache. -/
theorem claim_C4_cache_transparent_witness :
    ∃ t c1 ds1 c2 ds2,
      getTemplate .empty [("hello", [("en", "Hi")])] (.key "hello") ["en"]
        = .ok (t, c1, ds1) ∧
      getTemplate c1 [("hello", [("en", "Hi")])] (.key "hello") ["en"]
        = .ok (t, c2, ds2) ∧
      t = uncachedTemplate [("hello", [("en", "Hi")])] "hello" ["en"] :=
  claim_C4_cache_transparent [("hello", [("en", "Hi")])] ["en"] "hello" .empty
    (by decide)
    (fun k t h => by simp [cacheGet, TemplateCache.empty, alGet] at h)

/-! ### Claim C6: hard failure exactly on the empty key -/

theorem getTemplate_error_iff (c : TemplateCache)
    (translations : InternalTranslations) (arg : TranslationArg)
    (languages : List String) :
    (∃ e, getTemplate c translations arg languages = .error e) ↔
      arg = .key "" := by
  constructor
  · rintro ⟨e, he⟩
    cases arg with
    | inline translation =>
      rcases h3 : extractTemplate translation languages with ⟨t, ds⟩
      simp only [getTemplate, h3] at he
      exact Except.noConfusion he
    | key k =>
      by_cases hk : k = ""
      · rw [hk]
      · exfalso
        rcases h1 : cacheGet c (languages.headD "") k with _ | t0
        · rcases h2 : alGet translations k with _ | translation
          · rcases h3 : extractTemplate [(languages.getLastD "", k)] languages with ⟨t, ds⟩
            simp only [getTemplate, if_neg hk, h1, h2, h3] at he
            exact Except.noConfusion he
          · rcases h3 : extractTemplate translation languages with ⟨t, ds⟩
            simp only [getTemplate, if_neg hk, h1, h2, h3] at he
            exact Except.noConfusion he
        · simp only [getTemplate, if_neg hk, h1] at he
          exact Except.noConfusion he
  · rintro rfl
    exact ⟨_, rfl⟩

/-- C6: `tc` (and therefore `t`) raises the hard empty-key failure exactly
when the translation argument is the empty (falsy) string key; for every
other argument - unknown keys, inline entries, missing languages included -
the call completes with a string result. -/
theorem claim_C6_error_iff_empty_key (c : TemplateCache)
    (translations : InternalTranslations) (languages : List String)
    (toNum : String → JSNumber) (format : JSNumber → String)
    (arg : TranslationArg) (n : JSNumber) (params : List (String × JSValue)) :
    (∃ e, tc c translations languages toNum format arg n params = .error e) ↔
      arg = .key "" := by
  rw [← getTemplate_error_iff c translations arg languages]
  constructor
  · rintro ⟨e, he⟩
    rcases hg : getTemplate c translations arg languages with e0 | ⟨t, c1, ds⟩
    · exact ⟨e0, rfl⟩
    · simp [tc, hg] at he
  · rintro ⟨e, he⟩
    refine ⟨e, ?_⟩
    simp [tc, he]

/-! ### Interpolation-scanner lemmas -/

theorem tryPlaceholder_not_open (name : List Char) (s : List Char)
    (h : s.head? ≠ some '{') : tryPlaceholder name s = none := by
  cases s with
  | nil => rfl
  | cons c t =>
    have hc : c ≠ '{' := by simpa using h
    rw [tryPlaceholder.eq_def]
    split <;> simp_all

theorem interpGo_no_open (name repl : List Char) :
    ∀ fuel flag cs, '{' ∉ cs → interpGo name repl fuel flag cs = cs := by
  intro fuel
  induction fuel with
  | zero => intro flag cs h; rfl
  | succ f ih =>
    intro flag cs h
    cases cs with
    | nil => rfl
    | cons c rest =>
      have hc : c ≠ '{' := fun hh => h (by simp [hh])
      have hrest : '{' ∉ rest := fun hh => h (List.mem_cons_of_mem _ hh)
      have g1 : tryPlaceholder name rest = none := by
        apply tryPlaceholder_not_open
        cases rest with
        | nil => simp
        | cons d dt =>
          simp only [List.head?_cons, ne_eq, Option.some.injEq]
          exact fun hd => hrest (by simp [hd])
      have g2 : tryPlaceholder name (c :: rest) = none :=
        tryPlaceholder_not_open _ _ (by simp [hc])
      simp only [interpGo, g1, g2, ite_self]
      cases flag <;> simp [ih false rest hrest]

theorem interpGo_skip (name repl : List Char) :
    ∀ cs fuel flag rest, (cs ++ rest).length ≤ fuel → '{' ∉ cs →
      rest.head? ≠ some '{' →
      interpGo name repl fuel flag (cs ++ rest)
        = cs ++ interpGo name repl (fuel - cs.length) (flag && cs.isEmpty) rest := by
  intro cs
  induction cs with
  | nil =>
    intro fuel flag rest h1 h2 h3
    simp
  | cons c cs ih =>
    intro fuel flag rest h1 h2 h3
    cases fuel with
    | zero => simp at h1
    | succ f =>
      have hc : c ≠ '{' := fun hh => h2 (by simp [hh])
      have hcs : '{' ∉ cs := fun hh => h2 (List.mem_cons_of_mem _ hh)
      have hhead : (cs ++ rest).head? ≠ some '{' := by
        cases cs with
        | nil => simpa using h3
        | cons d dt =>
          simp only [List.cons_append, List.head?_cons, ne_eq, Option.some.injEq]
          exact fun hd => hcs (by simp [hd])
      have g1 : tryPlaceholder name (cs ++ rest) = none :=
        tryPlaceholder_not_open _ _ hhead
      have g2 : tryPlaceholder name (c :: (cs ++ rest)) = none :=
        tryPlaceholder_not_open _ _ (by simp [hc])
      have hf : (cs ++ rest).length ≤ f := by
        simpa using Nat.le_of_succ_le_succ h1
      have hrec := ih f false rest hf hcs h3
      simp only [List.cons_append, List.append_eq, interpGo, g1, g2, ite_self,
        List.length_cons, List.isEmpty_cons, Bool.and_false, Nat.add_sub_add_right]
      rw [hrec]
      simp

theorem tryPlaceholder_open_n (l : List Char) :
    tryPlaceholder ['n'] ('{' :: 'n' :: '}' :: l) = some (['{', 'n', '}'], l) := by
  simp [tryPlaceholder, takeWS, matchName,
    show jsWS 'n' = false from by decide,
    show jsWS '}' = false from by decide]

theorem interpGo_escape_step (name repl tok after : List Char) (f : Nat)
    (flag : Bool) (rest : List Char)
    (h : tryPlaceholder name rest = some (tok, after)) :
    interpGo name repl (f + 1) flag ('\\' :: rest)
      = tok ++ interpGo name repl f false after := by
  simp [interpGo, show lineTerm '\\' = false from rfl, h]

/-! ### Claim C8: escaped placeholders are not substituted -/

/-- C8: a placeholder whose opening brace is immediately preceded by a
backslash is not substituted: it is emitted as the literal placeholder text
with the escaping backslash removed, whatever the parameter value and
number formatter are; in particular interpolating backslash-open-n-close
followed by a text yields the placeholder text verbatim after trimming. -/
theorem claim_C8_escaped_placeholder (toNum : String → JSNumber)
    (format : JSNumber → String) (a b : String)
    (ha : '{' ∉ a.data) (hb : '{' ∉ b.data) :
    replaceParams ⟨a ++ "\\{n}" ++ b, a ++ "\\{n}" ++ b, a ++ "\\{n}" ++ b⟩
      [("n", .num (.num 5))] toNum format = jsTrim (a ++ "{n}" ++ b) := by
  have hdata : (a ++ "\\{n}" ++ b).data
      = a.data ++ ('\\' :: '{' :: 'n' :: '}' :: b.data) := by
    simp [String.data_append]
  have hdata2 : (a ++ "{n}" ++ b).data
      = a.data ++ ('{' :: 'n' :: '}' :: b.data) := by
    simp [String.data_append]
  have hinterp : ∀ repl : String,
      interpolateParam "n" repl (a ++ "\\{n}" ++ b) = a ++ "{n}" ++ b := by
    intro repl
    unfold interpolateParam
    rw [hdata]
    have hlen : (a.data ++ ('\\' :: '{' :: 'n' :: '}' :: b.data)).length + 1
        - a.data.length = b.data.length + 5 := by
      simp [List.length_append]
      omega
    rw [interpGo_skip _ _ a.data _ _ _ (by simp) ha (by simp), hlen]
    rw [show b.data.length + 5 = (b.data.length + 4) + 1 from rfl]
    rw [interpGo_escape_step _ _ _ _ _ _ _ (tryPlaceholder_open_n b.data)]
    rw [interpGo_no_open _ _ _ _ _ hb]
    simp only [List.cons_append, List.nil_append]
    rw [← hdata2, string_mk_data]
  have hsel : replaceParams
      ⟨a ++ "\\{n}" ++ b, a ++ "\\{n}" ++ b, a ++ "\\{n}" ++ b⟩
      [("n", .num (.num 5))] toNum format
      = jsTrim (interpolateParam "n" (format (.num 5)) (a ++ "\\{n}" ++ b)) := rfl
  rw [hsel, hinterp]

/-- Witness for C8 at concrete pieces with an arbitrary formatter. -/
theorem claim_C8_escaped_placeholder_witness :
    replaceParams ⟨"" ++ "\\{n}" ++ " items", "" ++ "\\{n}" ++ " items",
        "" ++ "\\{n}" ++ " items"⟩
      [("n", .num (.num 5))] (fun _ => JSNumber.nan) (fun _ => "NUM")
      = jsTrim ("" ++ "{n}" ++ " items") :=
  claim_C8_escaped_placeholder (fun _ => JSNumber.nan) (fun _ => "NUM")
    "" " items" (by decide) (by decide)

/-! ### Claim C5: missing keys display as themselves -/

/-- C5: a non-empty key absent from the table makes `getTemplate` emit the
missing-key diagnostic and parse a synthesized single-language entry mapping
the LAST fallback language to the literal key string; in particular, with an
empty table, t applied to flipper returns the string flipper together with
the missing-key diagnostic, for every number coercion and formatter. -/
theorem claim_C5_missing_key (c : TemplateCache)
    (translations : InternalTranslations) (languages : List String)
    (k : String) (toNum : String → JSNumber) (format : JSNumber → String)
    (hk : k ≠ "") (hmiss : alGet translations k = none)
    (hcache : cacheGet c (languages.headD "") k = none) :
    (∃ cache1,
      getTemplate c translations (.key k) languages =
        .ok ((extractTemplate [(languages.getLastD "", k)] languages).1, cache1,
             Diagnostic.missingKey k ::
               (extractTemplate [(languages.getLastD "", k)] languages).2)) ∧
    tFun .empty [] ["en"] toNum format (.key "flipper") []
      = .ok ("flipper",
          cacheSet .empty "en" "flipper" ⟨"flipper", "flipper", "flipper"⟩,
          [Diagnostic.missingKey "flipper"]) := by
  constructor
  · refine ⟨cacheSet c (languages.headD "") k
      (extractTemplate [(languages.getLastD "", k)] languages).1, ?_⟩
    rcases h3 : extractTemplate [(languages.getLastD "", k)] languages with ⟨t, ds⟩
    simp only [getTemplate, if_neg hk, hcache, hmiss, h3]
  · rfl

/-- Witness for C5 at the empty table and empty cache. -/
theorem claim_C5_missing_key_witness :
    (∃ cache1,
      getTemplate .empty [] (.key "flipper") ["en"] =
        .ok ((extractTemplate [("en", "flipper")] ["en"]).1, cache1,
             Diagnostic.missingKey "flipper" ::
               (extractTemplate [("en", "flipper")] ["en"]).2)) ∧
    tFun .empty [] ["en"] (fun _ => JSNumber.nan) (fun _ => "NUM")
        (.key "flipper") []
      = .ok ("flipper",
          cacheSet .empty "en" "flipper" ⟨"flipper", "flipper", "flipper"⟩,
          [Diagnostic.missingKey "flipper"]) :=
  claim_C5_missing_key .empty [] ["en"] "flipper"
    (fun _ => JSNumber.nan) (fun _ => "NUM")
    (by decide) rfl rfl

end JuitI18n
